import Mathlib

/-
Verification development for the QaAI legal-assistant backend.

Shallow embedding of the RAG/citation subsystem (apps/api/rag/citations.py,
apps/api/rag/vector_store.py, apps/api/rag/retrievers.py) and of the
LangGraph pipeline (apps/api/agents/graph.py, apps/api/agents/nodes.py).

Modelling conventions:
- Python floats are modelled as rationals (exact arithmetic).
- Python strings are modelled as Lean String; character classes of the
  regular expressions involved are modelled over ASCII (the corpus-facing
  code lowercases its input first, and every constant in the source is
  ASCII).
- Python dictionaries used as ordered maps are modelled as association
  lists with insertion-order preservation, matching CPython semantics.
- list.sort(key=..., reverse=True) is a stable descending sort; it is
  modelled with List.insertionSort on the relation "second score ≤ first
  score", which is likewise stable and sorts descending.
-/

set_option maxRecDepth 4000

/-- Jurisdictions, from core/models.py JurisdictionType. -/
inductive JurisdictionType where
  | DIFC
  | DFSA
  | UAE
  | OTHER
deriving DecidableEq, Repr

/-- String value of a jurisdiction, matching the Python str-enum values. -/
def JurisdictionType.value : JurisdictionType → String
  | .DIFC => "DIFC"
  | .DFSA => "DFSA"
  | .UAE => "UAE"
  | .OTHER => "OTHER"

/-- Instrument categories, from core/models.py InstrumentType. -/
inductive InstrumentType where
  | LAW
  | REGULATION
  | COURT_RULE
  | RULEBOOK
  | NOTICE
  | OTHER
deriving DecidableEq, Repr

/-- Candidate source for citation verification (citations.py CitationCandidate).
The Python field named section is called section_ here because section is a
Lean keyword. -/
structure CitationCandidate where
  title : String
  section_ : Option String := none
  url : Option String := none
  jurisdiction : JurisdictionType := .DIFC
  instrument_type : InstrumentType := .OTHER
  content_snippet : Option String := none
deriving DecidableEq, Repr

/-- Result of citation verification (citations.py VerificationResult). -/
structure VerificationResult where
  passed : Bool
  score : ℚ
  best_candidate : Option CitationCandidate
  all_scores : List (CitationCandidate × ℚ)
deriving DecidableEq, Repr

/-- Verified citation (core/models.py Citation). -/
structure Citation where
  title : String
  section_ : Option String
  url : Option String
  instrument_type : InstrumentType
  jurisdiction : JurisdictionType
deriving DecidableEq, Repr

/-- Python ASCII whitespace class, the characters matched by the regex
class backslash-s on ASCII text. -/
def isPySpace (c : Char) : Bool :=
  c = ' ' || c = '\t' || c = '\n' || c = '\r' || c = '\x0b' || c = '\x0c'

/-- Python str.split() accumulator: splits on whitespace runs and drops
empty pieces.  The accumulator holds the current word reversed. -/
def splitWsAux : List Char → List Char → List (List Char)
  | [], acc => if acc = [] then [] else [acc.reverse]
  | c :: cs, acc =>
    if isPySpace c then
      (if acc = [] then splitWsAux cs [] else acc.reverse :: splitWsAux cs [])
    else
      splitWsAux cs (c :: acc)

/-- Python str.split() on a character list. -/
def pySplitC (cs : List Char) : List (List Char) := splitWsAux cs []

/-- Python str.split() on a string. -/
def pySplit (s : String) : List String := (pySplitC s.data).map String.mk

/-- Join words with single spaces (the effect of the replace-whitespace-runs
regex followed by strip in normalize_text). -/
def joinWordsC : List (List Char) → List Char
  | [] => []
  | [w] => w
  | w :: ws => w ++ ' ' :: joinWordsC ws

/-- Character kept by the normalize_text regex sub of non [a-z0-9 and
whitespace] characters: anything else becomes a space. -/
def keepAllowed (c : Char) : Char :=
  if ('a' ≤ c ∧ c ≤ 'z') ∨ ('0' ≤ c ∧ c ≤ '9') ∨ isPySpace c = true then c else ' '

/-- citations.py normalize_text on a character list: lowercase, map
disallowed characters to spaces, collapse whitespace runs and strip. -/
def normalizeC (cs : List Char) : List Char :=
  joinWordsC (pySplitC ((cs.map Char.toLower).map keepAllowed))

/-- citations.py normalize_text. -/
def normalize_text (s : String) : String := String.mk (normalizeC s.data)

/-- Word set of a string, as used by jaccard_similarity (Python set of the
split words). -/
def wordFinset (s : String) : Finset String := (pySplit s).toFinset

/-- citations.py jaccard_similarity. -/
def jaccard_similarity (text1 text2 : String) : ℚ :=
  let norm1 := normalize_text text1
  let norm2 := normalize_text text2
  if norm1 = "" ∨ norm2 = "" then 0
  else
    let set1 := wordFinset norm1
    let set2 := wordFinset norm2
    if set1 = ∅ ∨ set2 = ∅ then 0
    else
      let intersection := (set1 ∩ set2).card
      let union := (set1 ∪ set2).card
      if 0 < union then (intersection : ℚ) / (union : ℚ) else 0

/-- Word character of the regex word-boundary class (ASCII). -/
def isWordChar (c : Char) : Bool :=
  ('a' ≤ c && c ≤ 'z') || ('A' ≤ c && c ≤ 'Z') || ('0' ≤ c && c ≤ '9') || c = '_'

/-- Digit character. -/
def isDigitCh (c : Char) : Bool := '0' ≤ c && c ≤ '9'

/-- Lowercase letter. -/
def isLowerAZ (c : Char) : Bool := 'a' ≤ c && c ≤ 'z'

/-- A word boundary holds after the end of a keyword when the remaining
input is empty or starts with a non-word character. -/
def boundaryAfter : List Char → Bool
  | [] => true
  | c :: _ => !(isWordChar c)

/-- Match a literal keyword as a prefix, returning the rest of the input. -/
def stripLit : List Char → List Char → Option (List Char)
  | [], rest => some rest
  | _ :: _, [] => none
  | k :: ks, c :: cs => if c = k then stripLit ks cs else none

/-- Suffix of the numbered-section pattern of extract_legal_terms after its
keyword group: one or more whitespace characters, one or more digits, an
optional lowercase letter, then a word boundary.  The digit run is maximal
(backtracking cannot help because neither the optional letter nor a word
boundary can absorb a digit). -/
def matchP1Suffix : List Char → Bool
  | [] => false
  | c :: rest =>
    if isPySpace c then
      match rest.dropWhile isPySpace with
      | [] => false
      | d :: rest2 =>
        if isDigitCh d then
          match rest2.dropWhile isDigitCh with
          | [] => true
          | e :: rest4 => if isLowerAZ e then boundaryAfter rest4 else !(isWordChar e)
        else false
    else false

/-- Keywords of the numbered-section pattern (the regex capture group is the
keyword alone, which is what Python re.findall returns for it). -/
def p1Keywords : List (List Char) :=
  ["article".data, "section".data, "part".data, "chapter".data, "clause".data,
   "paragraph".data, "subsection".data]

/-- Keywords of the instrument pattern. -/
def p2Keywords : List (List Char) :=
  ["law".data, "regulation".data, "rule".data, "act".data, "code".data,
   "statute".data, "ordinance".data]

/-- Keywords of the jurisdiction pattern. -/
def p3Keywords : List (List Char) :=
  ["difc".data, "dfsa".data, "uae".data, "dubai".data, "emirates".data]

/-- Keywords of the modal-verb pattern. -/
def p5Keywords : List (List Char) :=
  ["shall".data, "must".data, "may".data, "required".data, "prohibited".data,
   "permitted".data]

/-- Try the numbered-section pattern at the current position. -/
def tryP1 (cs : List Char) : Option (List Char) :=
  p1Keywords.findSome? fun k =>
    match stripLit k cs with
    | some rest => if matchP1Suffix rest then some k else none
    | none => none

/-- Try an alternation of plain keywords each followed by a word boundary. -/
def tryKeywords (kws : List (List Char)) (cs : List Char) : Option (List Char) :=
  kws.findSome? fun k =>
    match stripLit k cs with
    | some rest => if boundaryAfter rest then some k else none
    | none => none

/-- Try the two-word alternative data-whitespace-protection of the practice
area pattern; the returned match contains the actual whitespace run, as
re.findall would return it. -/
def tryDataProtection (cs : List Char) : Option (List Char) :=
  match stripLit "data".data cs with
  | some (c :: rest) =>
    if isPySpace c then
      let sp := c :: rest.takeWhile isPySpace
      match stripLit "protection".data (rest.dropWhile isPySpace) with
      | some rest2 =>
        if boundaryAfter rest2 then some ("data".data ++ sp ++ "protection".data) else none
      | none => none
    else none
  | _ => none

/-- Try the practice-area pattern (employment, data protection, commercial,
corporate, financial) in alternation order. -/
def tryP4 (cs : List Char) : Option (List Char) :=
  match tryKeywords ["employment".data] cs with
  | some m => some m
  | none =>
    match tryDataProtection cs with
    | some m => some m
    | none => tryKeywords ["commercial".data, "corporate".data, "financial".data] cs

/-- Scan every position of the text whose left context is a word boundary
and collect the matches of one pattern.  For the five patterns at hand this
coincides with the non-overlapping re.findall scan: no keyword is a prefix
of another keyword of the same pattern, and no position strictly inside a
match can start a new match because its previous character is a word
character. -/
def scanPattern (tryAt : List Char → Option (List Char)) :
    Option Char → List Char → List (List Char)
  | _, [] => []
  | prev, c :: cs =>
    let startOk := match prev with
      | none => true
      | some p => !(isWordChar p)
    let here := if startOk then tryAt (c :: cs) else none
    (match here with
     | some m => [m]
     | none => []) ++ scanPattern tryAt (some c) cs

/-- citations.py extract_legal_terms: the set of legal-domain terms found by
the five patterns on the lowercased text. -/
def extract_legal_terms (text : String) : Finset String :=
  let cs := text.data.map Char.toLower
  let ms := scanPattern tryP1 none cs ++ scanPattern (tryKeywords p2Keywords) none cs ++
    scanPattern (tryKeywords p3Keywords) none cs ++ scanPattern tryP4 none cs ++
    scanPattern (tryKeywords p5Keywords) none cs
  (ms.map String.mk).toFinset

/-- citations.py enhanced_similarity: Jaccard on title, section and their
concatenation, plus a legal-term overlap bonus, capped at 1. -/
def enhanced_similarity (claim : String) (candidate : CitationCandidate) : ℚ :=
  if claim = "" ∨ candidate.title = "" then 0
  else
    let sectionText := candidate.section_.getD ""
    let title_score := jaccard_similarity claim candidate.title
    let section_score := if sectionText = "" then 0 else jaccard_similarity claim sectionText
    let combined_score := jaccard_similarity claim (candidate.title ++ " " ++ sectionText)
    let claim_terms := extract_legal_terms claim
    let candidate_terms := extract_legal_terms (candidate.title ++ " " ++ sectionText)
    let term_overlap : ℚ :=
      if claim_terms ≠ ∅ ∨ candidate_terms ≠ ∅ then
        ((claim_terms ∩ candidate_terms).card : ℚ) / ((claim_terms ∪ candidate_terms).card : ℚ)
      else 0
    let base_score := max title_score (max section_score combined_score)
    let enhanced_score := base_score * (7/10) + term_overlap * (3/10)
    min enhanced_score 1

/-- Round-half-to-even to an integer, the rounding mode of Python round(). -/
def roundHalfEven (q : ℚ) : ℤ :=
  if q - ⌊q⌋ < 1/2 then ⌊q⌋
  else if q - ⌊q⌋ = 1/2 then (if ⌊q⌋ % 2 = 0 then ⌊q⌋ else ⌊q⌋ + 1)
  else ⌊q⌋ + 1

/-- Python round(x, 3). -/
def pyRound3 (q : ℚ) : ℚ := (roundHalfEven (q * 1000) : ℚ) / 1000

/-- The per-candidate score of the verify_citation loop: enhanced similarity,
plus the jurisdiction boost when the candidate jurisdiction is DIFC, capped
at 1. -/
def candFinalScore (claim : String) (c : CitationCandidate) (jurisdiction_boost : ℚ) : ℚ :=
  let base_score := enhanced_similarity claim c
  let final_score :=
    if c.jurisdiction = JurisdictionType.DIFC then base_score + jurisdiction_boost
    else base_score
  min final_score 1

/-- Descending order on scored candidates, the comparator of the score sort
in verify_citation (stable, descending on the score component). -/
def pairGE (a b : CitationCandidate × ℚ) : Prop := b.2 ≤ a.2

instance : DecidableRel pairGE := fun a b => inferInstanceAs (Decidable (b.2 ≤ a.2))

instance : IsTotal (CitationCandidate × ℚ) pairGE := ⟨fun a b => le_total b.2 a.2⟩

instance : IsTrans (CitationCandidate × ℚ) pairGE :=
  ⟨fun _ _ _ h1 h2 => le_trans h2 h1⟩

/-- citations.py verify_citation. -/
def verify_citation (claim : String) (candidates : List CitationCandidate)
    (threshold : ℚ := 1/4) (jurisdiction_boost : ℚ := 1/10) : VerificationResult :=
  if claim = "" ∨ candidates = [] then
    { passed := false, score := 0, best_candidate := none, all_scores := [] }
  else
    let scored_candidates :=
      candidates.map fun c => (c, candFinalScore claim c jurisdiction_boost)
    let sorted := List.insertionSort pairGE scored_candidates
    match sorted with
    | [] =>
      { passed := decide (threshold ≤ (0:ℚ)), score := pyRound3 0,
        best_candidate := none, all_scores := [] }
    | (best_candidate, best_score) :: _ =>
      { passed := decide (threshold ≤ best_score), score := pyRound3 best_score,
        best_candidate := some best_candidate,
        all_scores := sorted.map fun p => (p.1, pyRound3 p.2) }

/-- citations.py batch_verify_citations. -/
def batch_verify_citations (claims : List String) (candidates : List CitationCandidate)
    (threshold : ℚ := 1/4) : List VerificationResult :=
  claims.map fun claim => verify_citation claim candidates threshold

/-- citations.py create_verified_citation: a Citation only from a passing
result with a best candidate. -/
def create_verified_citation (claim : String) (verification_result : VerificationResult) :
    Option Citation :=
  if verification_result.passed = false ∨ verification_result.best_candidate = none then none
  else
    match verification_result.best_candidate with
    | none => none
    | some c =>
      some { title := c.title, section_ := c.section_, url := c.url,
             instrument_type := c.instrument_type, jurisdiction := c.jurisdiction }

/-- The citation-accepting loop of DIFCRetriever.retrieve_with_citations
(retrievers.py): keep only citations created from passing verification
results, silently skipping failing ones.  The unused claim argument mirrors
the Python call shape. -/
def collectVerifiedCitations (query : String)
    (pairs : List (CitationCandidate × VerificationResult)) : List Citation :=
  pairs.foldl
    (fun acc pr =>
      if pr.2.passed then
        match create_verified_citation query pr.2 with
        | some c => acc ++ [c]
        | none => acc
      else acc)
    []

/-- Memoizing citation verifier (citations.py CitationVerifier): threshold
plus verification cache. -/
structure CitationVerifierState where
  threshold : ℚ
  cache : List ((String × List String) × VerificationResult)

/-- The cache key of CitationVerifier.verify.  The Python key is the string
of hash(claim) and hash(tuple of candidate titles); it is modelled as the
pair (claim, titles) itself, i.e. with collision-free hashes.  Any actual
hash collision only merges more keys, so every cache hit of this model is a
cache hit of the Python code. -/
def cacheKey (claim : String) (candidates : List CitationCandidate) : String × List String :=
  (claim, candidates.map fun c => c.title)

/-- Association-list lookup for the verification cache. -/
def lookupCache (key : String × List String) :
    List ((String × List String) × VerificationResult) → Option VerificationResult
  | [] => none
  | e :: rest => if e.1 = key then some e.2 else lookupCache key rest

/-- citations.py CitationVerifier.verify: returns the result and the updated
verifier state. -/
def CitationVerifier.verify (v : CitationVerifierState) (claim : String)
    (candidates : List CitationCandidate) (use_cache : Bool := true) :
    VerificationResult × CitationVerifierState :=
  let key := cacheKey claim candidates
  match (if use_cache then lookupCache key v.cache else none) with
  | some cached => (cached, v)
  | none =>
    let result := verify_citation claim candidates v.threshold
    (result, if use_cache then { v with cache := (key, result) :: v.cache } else v)

/-- Chunk metadata relevant to search (the jurisdiction entry of the
metadata dict attached to a DocumentChunk in vector_store.py). -/
structure ChunkMeta where
  jurisdiction : Option String
deriving DecidableEq, Repr

/-- Document chunk as seen by search and hybrid_search (vector_store.py
DocumentChunk restricted to the fields those functions read). -/
structure Chunk where
  id : String
  metadata : Option ChunkMeta
deriving DecidableEq, Repr

/-- Vector search result (vector_store.py RetrievalMatch). -/
structure RetrievalMatch where
  chunk : Chunk
  score : ℚ
deriving DecidableEq, Repr

/-- Descending order on retrieval matches, the comparator of every
results.sort(key=score, reverse=True) in vector_store.py and retrievers.py. -/
def rmGE (a b : RetrievalMatch) : Prop := b.score ≤ a.score

instance : DecidableRel rmGE := fun a b => inferInstanceAs (Decidable (b.score ≤ a.score))

instance : IsTotal RetrievalMatch rmGE := ⟨fun a b => le_total b.score a.score⟩

instance : IsTrans RetrievalMatch rmGE := ⟨fun _ _ _ h1 h2 => le_trans h2 h1⟩

/-- The result-processing loop of VectorStore.search after the FAISS query:
each hit is a raw score together with the chunk the index position resolves
to (none models an invalid FAISS index or a chunk missing from storage,
both skipped).  Hits are jurisdiction-filtered, DIFC-boosted by the factor
6/5, sorted by descending adjusted score and truncated. -/
def searchProcess (hits : List (ℚ × Option Chunk)) (jurisdiction : Option JurisdictionType)
    (boost_difc : Bool) (limit : ℕ) : List RetrievalMatch :=
  let results := hits.filterMap fun h =>
    match h.2 with
    | none => none
    | some chunk =>
      let filteredOut : Bool :=
        match jurisdiction, chunk.metadata with
        | some j, some m => decide (m.jurisdiction ≠ some j.value)
        | _, _ => false
      if filteredOut then none
      else
        let isDifc : Bool :=
          match chunk.metadata with
          | some m => decide (m.jurisdiction = some "DIFC")
          | none => false
        let adjusted_score := if boost_difc && isDifc then h.1 * (6/5) else h.1
        some { chunk := chunk, score := adjusted_score }
  (List.insertionSort rmGE results).take limit

/-- Entry of the combined-score dict of VectorStore.hybrid_search. -/
structure CombEntry where
  chunk : Chunk
  vector_score : ℚ
  keyword_score : ℚ
deriving DecidableEq, Repr

/-- Dict assignment keyed by chunk id: overwrite in place or append. -/
def dictSetVector (key : String) (v : CombEntry) :
    List (String × CombEntry) → List (String × CombEntry)
  | [] => [(key, v)]
  | e :: rest => if e.1 = key then (key, v) :: rest else e :: dictSetVector key v rest

/-- The keyword pass of hybrid_search: update the keyword score of an
existing entry in place, or append a fresh entry with vector score 0. -/
def dictAddKeyword (key : String) (chunk : Chunk) (score : ℚ) :
    List (String × CombEntry) → List (String × CombEntry)
  | [] => [(key, { chunk := chunk, vector_score := 0, keyword_score := score })]
  | e :: rest =>
    if e.1 = key then (e.1, { e.2 with keyword_score := score }) :: rest
    else e :: dictAddKeyword key chunk score rest

/-- The combined-score dict of VectorStore.hybrid_search built from the
vector results then the keyword results, in insertion order. -/
def combinedScores (vector_results keyword_results : List RetrievalMatch) :
    List (String × CombEntry) :=
  let d := vector_results.foldl
    (fun d r => dictSetVector r.chunk.id
      { chunk := r.chunk, vector_score := r.score, keyword_score := 0 } d)
    []
  keyword_results.foldl
    (fun d r => dictAddKeyword r.chunk.id r.chunk r.score d)
    d

/-- The fusion-and-ranking core of VectorStore.hybrid_search, parametrized
by the two collaborator result lists: fused = vector_score * vector_weight
+ keyword_score * keyword_weight, re-sorted descending, truncated. -/
def hybrid_search (vector_results keyword_results : List RetrievalMatch) (limit : ℕ)
    (vector_weight : ℚ := 7/10) (keyword_weight : ℚ := 3/10) : List RetrievalMatch :=
  let final_results := (combinedScores vector_results keyword_results).map fun e =>
    { chunk := e.2.chunk,
      score := e.2.vector_score * vector_weight + e.2.keyword_score * keyword_weight :
      RetrievalMatch }
  (List.insertionSort rmGE final_results).take limit

/-- Python list slice l[a:b] with int bounds: negative indices count from
the end, then both bounds are clamped to the list. -/
def pySliceInt (l : List String) (a b : ℤ) : List String :=
  let n : ℤ := l.length
  let norm : ℤ → ℕ := fun j => (if j < 0 then max (n + j) 0 else min j n).toNat
  let start := norm a
  let stop := norm b
  (l.drop start).take (stop - start)

/-- The loop of VectorStore._split_text, fuel-indexed: while i < len(words)
take words[i : i + chunk_size], join with spaces, advance i by chunk_size -
overlap and break if the new i is not positive.  none means the fuel ran
out before the loop exited. -/
def splitTextGo (words : List String) (chunk_size overlap : ℤ) (i : ℤ)
    (acc : List String) : ℕ → Option (List String)
  | 0 => if i < (words.length : ℤ) then none else some acc
  | fuel + 1 =>
    if i < (words.length : ℤ) then
      let chunk_words := pySliceInt words i (i + chunk_size)
      let acc2 := acc ++ [String.intercalate " " chunk_words]
      let i2 := i + chunk_size - overlap
      if i2 ≤ 0 then some acc2 else splitTextGo words chunk_size overlap i2 acc2 fuel
    else some acc

/-- VectorStore._split_text with fuel one more than the number of words,
which suffices for every parameter combination (proved below). -/
def split_text (text : String) (chunk_size overlap : ℤ) : Option (List String) :=
  let words := pySplit text
  splitTextGo words chunk_size overlap 0 [] (words.length + 1)

/-- Substring test, Python in on strings (over character lists). -/
def containsSub : List Char → List Char → Bool
  | hay, needle =>
    match hay with
    | [] => decide (needle = [])
    | _ :: rest => (stripLit needle hay).isSome || containsSub rest needle

/-- Python lowercase of a string (ASCII). -/
def pyLower (s : String) : String := String.mk (s.data.map Char.toLower)

/-- Python substring membership term in text. -/
def strContains (hay needle : String) : Bool := containsSub hay.data needle.data

/-- prompts.py LEGAL_DISCLAIMER_TEMPLATES standard. -/
def disclaimerStandard : String :=
  "\nIMPORTANT LEGAL DISCLAIMER:\nThis information is provided for educational and informational purposes only and does not constitute legal advice. The content is based on DIFC laws and regulations as understood at the time of generation and may not reflect the most current legal developments. You should not rely on this information for making legal decisions and should always consult with qualified legal counsel admitted to practice in the DIFC for specific legal matters.\n"

/-- prompts.py LEGAL_DISCLAIMER_TEMPLATES financial_services. -/
def disclaimerFinancial : String :=
  "\nIMPORTANT LEGAL DISCLAIMER:\nThis information relates to DIFC financial services regulations and is provided for educational purposes only. It does not constitute legal advice, regulatory guidance, or compliance recommendations. DFSA regulations are complex and subject to change. Financial services firms should consult with qualified legal counsel and compliance professionals for specific regulatory matters and should verify current regulatory requirements directly with the DFSA.\n"

/-- prompts.py LEGAL_DISCLAIMER_TEMPLATES corporate. -/
def disclaimerCorporate : String :=
  "\nIMPORTANT LEGAL DISCLAIMER:\nThis information relates to DIFC corporate and commercial law and is provided for educational purposes only. It does not constitute legal advice or substitute for professional legal counsel. DIFC corporate requirements are specific and subject to change. Businesses and individuals should consult with qualified legal professionals admitted to practice in the DIFC for specific corporate and commercial legal matters.\n"

/-- prompts.py get_disclaimer_for_topic. -/
def get_disclaimer_for_topic (topic : String) : String :=
  let topic_lower := pyLower topic
  if (["financial", "dfsa", "banking", "investment", "fund"].any fun term =>
      strContains topic_lower term) then disclaimerFinancial
  else if (["corporate", "company", "business", "commercial", "contract"].any fun term =>
      strContains topic_lower term) then disclaimerCorporate
  else disclaimerStandard

/-- One formatted entry of retrieved_context, the doc_info dict built by the
retrieve node (nodes.py).  Field values are opaque to every claim; the
structure records shape only. -/
structure RetrievedDoc where
  title : String
  content : String
  score : ℚ
  jurisdiction : Option String
  instrument_type : Option String
  section_ref : Option String
deriving DecidableEq, Repr

/-- The model names reported by human_review and export via the router. -/
structure ModelInfo where
  planner : String
  drafter : String
  verifier : String
deriving DecidableEq, Repr

/-- The final_output dict built by the human_review node. -/
structure FinalOutput where
  draft : String
  plan : String
  citations : List Citation
  verification_result : String
  verification_passed : Bool
  retrieved_context_count : ℕ
  model_info : ModelInfo
  thinking_states : List String
  jurisdiction : String
deriving DecidableEq, Repr

/-- The metadata dict of the export package built by the export node. -/
structure ExportMeta where
  prompt : String
  jurisdiction : String
  citations_count : ℕ
  verification_passed : Bool
  generated_at : String
  models_used : ModelInfo
deriving DecidableEq, Repr

/-- The export_data dict built by the export node. -/
structure ExportData where
  content : String
  metadata : ExportMeta
  citations : List Citation
  thinking_states : List String
deriving DecidableEq, Repr

/-- core/models.py WorkflowState (a TypedDict with total=False): an Option
field models a key that may be absent from the dict. -/
structure WorkflowState where
  prompt : String
  jurisdiction : Option JurisdictionType := none
  template_doc_id : Option String := none
  reference_doc_ids : List String := []
  model_override : Option String := none
  plan : Option String := none
  retrieved_context : Option (List RetrievedDoc) := none
  citations : Option (List Citation) := none
  draft : Option String := none
  verification_result : Option String := none
  verification_passed : Option Bool := none
  final_output : Option FinalOutput := none
  export_data : Option ExportData := none
  thinking : Option (List String) := none
  error : Option String := none
deriving Repr

/-- Outcome of model_router.validate_model_availability as seen by the
preflight node: an exception message, or the valid flag with the formatted
issue list. -/
inductive ValidateOutcome where
  | exn (msg : String)
  | ok (valid : Bool) (issues : String)

/-- External collaborators of the pipeline, fixed per run: router lookups
(a pure lookup per the router contract; the drafter lookup abstracts over
the context-length threshold), completion-provider calls for the plan,
draft and verification stages (Except.error models a raised provider
exception, an empty ok string models a missing or empty content field), the
retrieval engine call, a wall clock indexed by the number of trace entries
already emitted, and the export timestamp. -/
structure Env where
  clock : ℕ → String
  validateOutcome : ValidateOutcome
  plannerModel : String
  drafterModel : String
  verifierModel : String
  planCall : Except String String
  retrieveCall : Except String (List RetrievedDoc × List Citation)
  draftCall : Except String String
  verifyCall : Except String String
  now : String

/-- nodes.py emit: append a timestamped thinking label, returning an
updated state. -/
def emit (env : Env) (state : WorkflowState) (label : String) : WorkflowState :=
  let thinking := state.thinking.getD []
  { state with
    thinking := some (thinking ++ ["[" ++ env.clock thinking.length ++ "] " ++ label]) }

/-- nodes.py preflight: validate inputs, set defaults, check model
availability. -/
def preflightN (env : Env) (state : WorkflowState) : WorkflowState :=
  let state := emit env state "Validating workflow inputs"
  if state.prompt = "" then { state with error := some "Missing user prompt" }
  else
    let state :=
      if state.jurisdiction = none then { state with jurisdiction := some .DIFC } else state
    let state := if state.thinking = none then { state with thinking := some [] } else state
    let state := if state.citations = none then { state with citations := some [] } else state
    match env.validateOutcome with
    | .exn msg => { state with error := some ("Model routing error: " ++ msg) }
    | .ok valid issues =>
      if valid = false then
        { state with error := some ("Model availability issues: " ++ issues) }
      else emit env state "Preflight validation completed"

/-- nodes.py plan: short-circuit on error, then call the planning model. -/
def planN (env : Env) (state : WorkflowState) : WorkflowState :=
  let state := emit env state "Creating workflow plan"
  if state.error.isSome then state
  else
    let state := emit env state ("Using " ++ env.plannerModel ++ " for planning")
    match env.planCall with
    | .error e => { state with error := some ("Planning error: " ++ e) }
    | .ok content =>
      if content = "" then { state with error := some "Failed to generate plan" }
      else
        let state := emit env state "Plan generation completed"
        { state with plan := some content }

/-- nodes.py retrieve: short-circuit on error, then call the retrieval
engine and store formatted context and verified citations. -/
def retrieveN (env : Env) (state : WorkflowState) : WorkflowState :=
  let state := emit env state "Retrieving DIFC sources and context"
  if state.error.isSome then state
  else
    match env.retrieveCall with
    | .error e => { state with error := some ("Retrieval error: " ++ e) }
    | .ok result =>
      let state := emit env state
        ("Retrieved " ++ toString result.1.length ++ " relevant documents")
      let state := emit env state
        ("Generated " ++ toString result.2.length ++ " verified citations")
      { state with retrieved_context := some result.1, citations := some result.2 }

/-- nodes.py draft: short-circuit on error, then call the drafting model and
append the topic disclaimer.  The Python f-string writes a literal
backslash-n pair, reproduced here verbatim. -/
def draftN (env : Env) (state : WorkflowState) : WorkflowState :=
  let state := emit env state "Drafting content with DIFC legal analysis"
  if state.error.isSome then state
  else
    let state := emit env state ("Using " ++ env.drafterModel ++ " for drafting")
    match env.draftCall with
    | .error e => { state with error := some ("Drafting error: " ++ e) }
    | .ok content =>
      if content = "" then { state with error := some "Failed to generate draft" }
      else
        let disclaimer := get_disclaimer_for_topic state.prompt
        let draft_with_disclaimer := content ++ "\\n\\n" ++ disclaimer
        let state := emit env state "Draft generation completed"
        { state with draft := some draft_with_disclaimer }

/-- nodes.py verify_citations: short-circuit on error, then call the
verification model; passed iff the response contains approved or verified. -/
def verifyCitationsN (env : Env) (state : WorkflowState) : WorkflowState :=
  let state := emit env state "Verifying citations and content accuracy"
  if state.error.isSome then state
  else
    let state := emit env state ("Using " ++ env.verifierModel ++ " for verification")
    match env.verifyCall with
    | .error e => { state with error := some ("Verification error: " ++ e) }
    | .ok content =>
      if content = "" then { state with error := some "Failed to verify content" }
      else
        let verification_passed :=
          strContains (pyLower content) "approved" || strContains (pyLower content) "verified"
        let state := emit env state
          (if verification_passed then "Citation verification passed"
           else "Citation verification flagged issues")
        { state with verification_result := some content,
                     verification_passed := some verification_passed }

/-- String form of the jurisdiction as the human_review and export nodes
format it. -/
def jurisdictionString (j : Option JurisdictionType) : String := (j.getD .DIFC).value

/-- nodes.py human_review: no error guard; compile the final output. -/
def humanReviewN (env : Env) (state : WorkflowState) : WorkflowState :=
  let state := emit env state "Preparing content for review"
  let final_output : FinalOutput :=
    { draft := state.draft.getD "",
      plan := state.plan.getD "",
      citations := state.citations.getD [],
      verification_result := state.verification_result.getD "",
      verification_passed := state.verification_passed.getD false,
      retrieved_context_count := (state.retrieved_context.getD []).length,
      model_info := ⟨env.plannerModel, env.drafterModel, env.verifierModel⟩,
      thinking_states := state.thinking.getD [],
      jurisdiction := jurisdictionString state.jurisdiction }
  let state := emit env state "Content prepared for human review"
  { state with final_output := some final_output }

/-- nodes.py export: short-circuit on error, then build the export
package. -/
def exportN (env : Env) (state : WorkflowState) : WorkflowState :=
  let state := emit env state "Exporting final content"
  if state.error.isSome then state
  else
    let export_data : ExportData :=
      { content := state.draft.getD "",
        metadata :=
          { prompt := state.prompt,
            jurisdiction := jurisdictionString state.jurisdiction,
            citations_count := (state.citations.getD []).length,
            verification_passed := state.verification_passed.getD false,
            generated_at := env.now,
            models_used := ⟨env.plannerModel, env.drafterModel, env.verifierModel⟩ },
        citations := state.citations.getD [],
        thinking_states := state.thinking.getD [] }
    let state := emit env state "Export completed"
    { state with export_data := some export_data }

/-- The executed stages of one graph run (graph.py _build_graph): the seven
nodes in their fixed order.  _build_graph registers an unconditional edge
for every consecutive stage pair and, for preflight, plan, retrieve and
draft, additionally a conditional _should_continue edge routing to END on
error; in LangGraph the static edge and the conditional branch from the
same node are independent triggers and both fire, so routing to END never
cancels the static edge and every stage executes in every run.  Returns
the (node name, node output) pairs of all seven supersteps; the stream
loop below stops consuming them at the first error-bearing output. -/
def runPipelineTrace (env : Env) (s0 : WorkflowState) : List (String × WorkflowState) :=
  let s1 := preflightN env s0
  let s2 := planN env s1
  let s3 := retrieveN env s2
  let s4 := draftN env s3
  let s5 := verifyCitationsN env s4
  let s6 := humanReviewN env s5
  let s7 := exportN env s6
  [("preflight", s1), ("plan", s2), ("retrieve", s3), ("draft", s4),
   ("verify_citations", s5), ("human_review", s6), ("export", s7)]

/-- Final state of a run, the value the compiled graph returns. -/
def runPipeline (env : Env) (s0 : WorkflowState) : WorkflowState :=
  ((runPipelineTrace env s0).getLast?.map Prod.snd).getD s0

/-- Events of the graph.py stream_run event stream. -/
inductive StreamEvent where
  | thinking_state (node : String) (label : String)
  | draft_progress (node : String) (content : String)
  | citation (c : Citation)
  | error (node : String) (message : String)
  | done
deriving DecidableEq, Repr

/-- The events stream_run emits for one node output, in loop order: the
latest thinking label, the draft progress fragment for the draft node, one
event per citation when the citation list is nonempty, and the error event.
The second component signals the early return after an error event. -/
def nodeEvents (node : String) (out : WorkflowState) : List StreamEvent :=
  let thinking := out.thinking.getD []
  (match thinking.getLast? with
   | some label => [.thinking_state node label]
   | none => [])
  ++ (match out.draft with
      | some d => if node = "draft" then [.draft_progress node (d.take 200 ++ "...")] else []
      | none => [])
  ++ (match out.citations with
      | some cs => cs.map .citation
      | none => [])

/-- stream_run event generation over the executed stages: each node output
contributes its events; an error event ends the stream immediately,
otherwise a done event follows the last stage. -/
def streamEvents : List (String × WorkflowState) → List StreamEvent
  | [] => [.done]
  | (node, out) :: rest =>
    if h : out.error.isSome then
      nodeEvents node out ++ [.error node (out.error.get h)]
    else
      nodeEvents node out ++ streamEvents rest

/-- The initial state stream_run and run build from their arguments. -/
def initState (prompt : String) (jurisdiction : JurisdictionType)
    (template_doc_id : Option String := none) (reference_doc_ids : List String := [])
    (model_override : Option String := none) : WorkflowState :=
  { prompt := prompt,
    jurisdiction := some jurisdiction,
    template_doc_id := template_doc_id,
    reference_doc_ids := reference_doc_ids,
    model_override := model_override,
    thinking := some [],
    citations := some [] }

/-- graph.py stream_run, reduced to the event list it yields. -/
def stream_run (env : Env) (prompt : String) (jurisdiction : JurisdictionType)
    (template_doc_id : Option String := none) (reference_doc_ids : List String := [])
    (model_override : Option String := none) : List StreamEvent :=
  streamEvents (runPipelineTrace env
    (initState prompt jurisdiction template_doc_id reference_doc_ids model_override))

/-- Fixture candidate: title alpha, UAE jurisdiction. -/
def candAlphaUAE : CitationCandidate := { title := "alpha", jurisdiction := .UAE }

/-- Fixture candidate: title alpha, DIFC jurisdiction. -/
def candAlphaDIFC : CitationCandidate := { title := "alpha", jurisdiction := .DIFC }

/-- Fixture verifier state: the module-level citation_verifier with
threshold 0.25 and an empty cache. -/
def verifierFixture : CitationVerifierState := { threshold := 1/4, cache := [] }

/-- Fixture chunk A of the hybrid-retrieval scenario. -/
def chunkA : Chunk := { id := "A", metadata := none }

/-- Fixture chunk B of the hybrid-retrieval scenario. -/
def chunkB : Chunk := { id := "B", metadata := none }

/-- Vector-ranking fixture of the hybrid-retrieval scenario. -/
def vresScenario : List RetrievalMatch := [⟨chunkA, 9/10⟩, ⟨chunkB, 1/2⟩]

/-- Keyword-ranking fixture of the hybrid-retrieval scenario. -/
def kresScenario : List RetrievalMatch := [⟨chunkA, 1/5⟩, ⟨chunkB, 19/20⟩]

/-- Fixture environment in which every collaborator succeeds except the
verification model call, which returns an empty content field. -/
def envVerifyFail : Env :=
  { clock := fun _ => "00:00:00",
    validateOutcome := .ok true "",
    plannerModel := "o1",
    drafterModel := "gpt-4.1",
    verifierModel := "claude-3.7-sonnet",
    planCall := .ok "PLAN",
    retrieveCall := .ok ([], []),
    draftCall := .ok "DRAFT",
    verifyCall := .ok "",
    now := "2025-01-01T00:00:00" }

/-- Fixture state that already carries an error. -/
def sErrFixture : WorkflowState := { initState "hi" .DIFC with error := some "boom" }

/-- A node preserves an error state: it keeps the error and the
model-generated fields (plan, draft, verification result) unchanged, and
only extends the trace. -/
def preservesAfterError (f : Env → WorkflowState → WorkflowState) : Prop :=
  ∀ (env : Env) (s : WorkflowState), s.error.isSome = true →
    (f env s).error = s.error ∧ (f env s).plan = s.plan ∧ (f env s).draft = s.draft ∧
    (f env s).verification_result = s.verification_result ∧
    (s.thinking.getD []) <+: ((f env s).thinking.getD [])

/-- The floor bounds the round-half-even value from below. -/
theorem roundHalfEven_ge_floor (q : ℚ) : ⌊q⌋ ≤ roundHalfEven q := by
  unfold roundHalfEven
  split_ifs <;> omega

/-- The round-half-even value is at most the floor plus one. -/
theorem roundHalfEven_le_floor_add_one (q : ℚ) : roundHalfEven q ≤ ⌊q⌋ + 1 := by
  unfold roundHalfEven
  split_ifs <;> omega

/-- Round-half-even computes the floor below the half point. -/
theorem roundHalfEven_eq_floor_of_lt {q : ℚ} (h : q - ⌊q⌋ < 1/2) :
    roundHalfEven q = ⌊q⌋ := by
  unfold roundHalfEven
  rw [if_pos h]

/-- Round-half-even computes the floor plus one above the half point. -/
theorem roundHalfEven_eq_succ_of_gt {q : ℚ} (h : 1/2 < q - ⌊q⌋) :
    roundHalfEven q = ⌊q⌋ + 1 := by
  unfold roundHalfEven
  rw [if_neg (by linarith), if_neg (by linarith)]

/-- Round-half-even is monotone. -/
theorem roundHalfEven_mono {x y : ℚ} (h : x ≤ y) : roundHalfEven x ≤ roundHalfEven y := by
  rcases lt_or_le ⌊x⌋ ⌊y⌋ with hf | hf
  · calc roundHalfEven x ≤ ⌊x⌋ + 1 := roundHalfEven_le_floor_add_one x
      _ ≤ ⌊y⌋ := by omega
      _ ≤ roundHalfEven y := roundHalfEven_ge_floor y
  · have hfe : ⌊y⌋ = ⌊x⌋ := le_antisymm hf (Int.floor_mono h)
    rcases lt_trichotomy (x - ⌊x⌋) (1/2) with hx | hx | hx
    · rw [roundHalfEven_eq_floor_of_lt hx]
      have := roundHalfEven_ge_floor y
      omega
    · rcases lt_trichotomy (y - ⌊y⌋) (1/2) with hy | hy | hy
      · exfalso
        rw [hfe] at hy
        linarith
      · have hxy : x = y := by
          rw [hfe] at hy
          linarith
        rw [hxy]
      · have h1 := roundHalfEven_eq_succ_of_gt hy
        have h2 := roundHalfEven_le_floor_add_one x
        omega
    · have hy : 1/2 < y - ⌊y⌋ := by
        rw [hfe]
        linarith
      rw [roundHalfEven_eq_succ_of_gt hx, roundHalfEven_eq_succ_of_gt hy]
      omega

/-- Python round(x, 3) is monotone. -/
theorem pyRound3_mono {x y : ℚ} (h : x ≤ y) : pyRound3 x ≤ pyRound3 y := by
  unfold pyRound3
  have h1000 : x * 1000 ≤ y * 1000 := by nlinarith
  have := roundHalfEven_mono h1000
  have hcast : ((roundHalfEven (x * 1000) : ℚ)) ≤ ((roundHalfEven (y * 1000) : ℚ)) := by
    exact_mod_cast this
  linarith

/-- Python round(x, 3) of a value at most one is at most one. -/
theorem pyRound3_le_one {q : ℚ} (h : q ≤ 1) : pyRound3 q ≤ 1 := by
  have h1 : pyRound3 q ≤ pyRound3 1 := pyRound3_mono h
  have h2 : pyRound3 1 = 1 := by
    unfold pyRound3 roundHalfEven
    norm_num
  linarith

/-- Words produced by the split accumulator are never empty. -/
theorem mem_splitWsAux_ne_nil (cs : List Char) :
    ∀ acc w, w ∈ splitWsAux cs acc → w ≠ [] := by
  induction cs with
  | nil =>
    intro acc w h
    by_cases ha : acc = []
    · simp [splitWsAux, ha] at h
    · simp [splitWsAux, ha] at h
      intro hw
      apply ha
      rw [h] at hw
      exact List.reverse_eq_nil_iff.mp hw
  | cons c cs ih =>
    intro acc w h
    by_cases hc : isPySpace c = true
    · by_cases ha : acc = []
      · simp only [splitWsAux, hc, if_true, ha] at h
        exact ih [] w h
      · simp only [splitWsAux, hc, if_true, if_neg ha] at h
        rcases List.mem_cons.mp h with hw | hw
        · intro hnil
          apply ha
          rw [hw] at hnil
          exact List.reverse_eq_nil_iff.mp hnil
        · exact ih [] w hw
    · simp only [splitWsAux, hc] at h
      simp only [Bool.false_eq_true, if_false] at h
      exact ih (c :: acc) w h

/-- Words produced by the split accumulator contain no whitespace, provided
the accumulator contains none. -/
theorem mem_splitWsAux_nospace (cs : List Char) :
    ∀ acc, (∀ c ∈ acc, isPySpace c = false) →
      ∀ w ∈ splitWsAux cs acc, ∀ c ∈ w, isPySpace c = false := by
  induction cs with
  | nil =>
    intro acc hacc w hw c hc
    by_cases ha : acc = []
    · simp [splitWsAux, ha] at hw
    · simp [splitWsAux, ha] at hw
      rw [hw] at hc
      exact hacc c (List.mem_reverse.mp hc)
  | cons d cs ih =>
    intro acc hacc w hw c hc
    by_cases hd : isPySpace d = true
    · by_cases ha : acc = []
      · simp only [splitWsAux, hd, if_true, ha] at hw
        exact ih [] (by simp) w hw c hc
      · simp only [splitWsAux, hd, if_true, if_neg ha] at hw
        rcases List.mem_cons.mp hw with hw1 | hw1
        · rw [hw1] at hc
          exact hacc c (List.mem_reverse.mp hc)
        · exact ih [] (by simp) w hw1 c hc
    · simp only [splitWsAux, hd] at hw
      simp only [Bool.false_eq_true, if_false] at hw
      refine ih (d :: acc) ?_ w hw c hc
      intro e he
      rcases List.mem_cons.mp he with he1 | he1
      · rw [he1]
        exact Bool.not_eq_true _ ▸ hd
      · exact hacc e he1

/-- An empty split result forces an empty accumulator and all-whitespace
input. -/
theorem splitWsAux_eq_nil (cs : List Char) :
    ∀ acc, splitWsAux cs acc = [] → acc = [] ∧ ∀ c ∈ cs, isPySpace c = true := by
  induction cs with
  | nil =>
    intro acc h
    by_cases ha : acc = []
    · exact ⟨ha, by simp⟩
    · simp [splitWsAux, ha] at h
  | cons c cs ih =>
    intro acc h
    by_cases hc : isPySpace c = true
    · by_cases ha : acc = []
      · simp only [splitWsAux, hc, if_true, ha] at h
        have := ih [] h
        refine ⟨ha, ?_⟩
        intro e he
        rcases List.mem_cons.mp he with he1 | he1
        · rw [he1]; exact hc
        · exact this.2 e he1
      · simp [splitWsAux, hc, ha] at h
    · simp only [splitWsAux, hc] at h
      simp only [Bool.false_eq_true, if_false] at h
      have := (ih (c :: acc) h).1
      simp at this

/-- A character list starting with a non-whitespace character splits into at
least one word. -/
theorem pySplitC_ne_nil_of_head_nospace {c : Char} (cs : List Char)
    (hc : isPySpace c = false) : pySplitC (c :: cs) ≠ [] := by
  intro h
  have := (splitWsAux_eq_nil (c :: cs) [] h).2 c (by simp)
  rw [hc] at this
  exact Bool.false_ne_true this

/-- A nonempty normalized character list starts with a non-whitespace
character. -/
theorem normalizeC_head_nospace (cs : List Char) (h : normalizeC cs ≠ []) :
    ∃ c cs2, normalizeC cs = c :: cs2 ∧ isPySpace c = false := by
  unfold normalizeC at h ⊢
  cases hws : pySplitC ((cs.map Char.toLower).map keepAllowed) with
  | nil =>
    rw [hws] at h
    simp [joinWordsC] at h
  | cons w rest =>
    have hwmem : w ∈ pySplitC ((cs.map Char.toLower).map keepAllowed) := by
      rw [hws]; exact List.mem_cons_self w rest
    have hwne : w ≠ [] := mem_splitWsAux_ne_nil _ [] w hwmem
    have hwns : ∀ c ∈ w, isPySpace c = false :=
      mem_splitWsAux_nospace _ [] (by simp) w hwmem
    obtain ⟨c, w2, rfl⟩ := List.exists_cons_of_ne_nil hwne
    have hcns : isPySpace c = false := hwns c (List.mem_cons_self c w2)
    cases rest with
    | nil => exact ⟨c, w2, rfl, hcns⟩
    | cons w3 rest2 => exact ⟨c, w2 ++ ' ' :: joinWordsC (w3 :: rest2), rfl, hcns⟩

/-- The word set of a nonempty normalized text is nonempty. -/
theorem wordFinset_normalize_ne_empty {s : String} (h : normalize_text s ≠ "") :
    wordFinset (normalize_text s) ≠ ∅ := by
  have hdata : normalizeC s.data ≠ [] := by
    intro hx
    apply h
    unfold normalize_text
    rw [hx]
  obtain ⟨c, cs2, heq, hcns⟩ := normalizeC_head_nospace s.data hdata
  unfold normalize_text wordFinset pySplit
  rw [heq]
  have hne := pySplitC_ne_nil_of_head_nospace cs2 hcns
  intro hempty
  rw [List.toFinset_eq_empty_iff, List.map_eq_nil_iff] at hempty
  exact hne hempty

/-- C5 counterexample: the texts exclamation mark and question mark have
identical normalized forms (both empty), yet jaccard_similarity returns 0
rather than 1, refuting the claim that identical normalized forms always
yield 1.0. -/
theorem claim_C5_counterexample :
    normalize_text "!" = normalize_text "?" ∧ jaccard_similarity "!" "?" ≠ 1 := by
  decide

/-- C5 (amended): jaccard_similarity is symmetric and lies in [0, 1];
texts with identical and nonempty normalized forms score 1; texts whose
normalized word sets are disjoint score 0.  The amendment restricts the
identical-normalized-forms case to nonempty normalized forms: two texts
that both normalize to the empty string hit the early return and score 0. -/
theorem claim_C5_amended :
    (∀ a b, jaccard_similarity a b = jaccard_similarity b a) ∧
    (∀ a b, 0 ≤ jaccard_similarity a b ∧ jaccard_similarity a b ≤ 1) ∧
    (∀ a b, normalize_text a = normalize_text b → normalize_text a ≠ "" →
      jaccard_similarity a b = 1) ∧
    (∀ a b, wordFinset (normalize_text a) ∩ wordFinset (normalize_text b) = ∅ →
      jaccard_similarity a b = 0) := by
  refine ⟨?_, ?_, ?_, ?_⟩
  · intro a b
    simp only [jaccard_similarity]
    by_cases h1 : normalize_text a = "" <;> by_cases h2 : normalize_text b = ""
    · simp [h1, h2]
    · simp [h1, h2]
    · simp [h1, h2]
    · rw [if_neg (show ¬(normalize_text a = "" ∨ normalize_text b = "") by tauto),
        if_neg (show ¬(normalize_text b = "" ∨ normalize_text a = "") by tauto)]
      by_cases h3 : wordFinset (normalize_text a) = ∅ <;>
        by_cases h4 : wordFinset (normalize_text b) = ∅
      · simp [h3, h4]
      · simp [h3, h4]
      · simp [h3, h4]
      · rw [if_neg (show ¬(wordFinset (normalize_text a) = ∅ ∨
            wordFinset (normalize_text b) = ∅) by tauto),
          if_neg (show ¬(wordFinset (normalize_text b) = ∅ ∨
            wordFinset (normalize_text a) = ∅) by tauto),
          Finset.union_comm (wordFinset (normalize_text a)),
          Finset.inter_comm (wordFinset (normalize_text a))]
  · intro a b
    simp only [jaccard_similarity]
    split_ifs with g1 g2 g3
    · norm_num
    · norm_num
    · constructor
      · apply div_nonneg <;> positivity
      · rw [div_le_one (by exact_mod_cast g3)]
        have hsub : wordFinset (normalize_text a) ∩ wordFinset (normalize_text b) ⊆
            wordFinset (normalize_text a) ∪ wordFinset (normalize_text b) :=
          Finset.inter_subset_left.trans Finset.subset_union_left
        exact_mod_cast Finset.card_le_card hsub
    · norm_num
  · intro a b hab hne
    simp only [jaccard_similarity]
    have hbne : normalize_text b ≠ "" := hab ▸ hne
    rw [if_neg (by simp [hne, hbne]), ← hab]
    have hset : wordFinset (normalize_text a) ≠ ∅ := wordFinset_normalize_ne_empty hne
    rw [if_neg (by simp [hset]), Finset.inter_self, Finset.union_self,
      if_pos (Finset.card_pos.mpr (Finset.nonempty_of_ne_empty hset))]
    have hpos : (0:ℚ) < ((wordFinset (normalize_text a)).card : ℚ) := by
      exact_mod_cast Finset.card_pos.mpr (Finset.nonempty_of_ne_empty hset)
    exact div_self (ne_of_gt hpos)
  · intro a b hd
    simp only [jaccard_similarity]
    split_ifs with g1 g2 g3
    · rfl
    · rfl
    · rw [hd]
      simp
    · rfl

/-- C5 witness: the amended theorem applied at concrete texts — two texts
with the same nonempty normalized form score 1, and two texts with disjoint
word sets score 0. -/
theorem claim_C5_witness :
    jaccard_similarity "hello world" "hello  world!" = 1 ∧
    jaccard_similarity "aa" "bb" = 0 :=
  ⟨claim_C5_amended.2.2.1 "hello world" "hello  world!" (by decide) (by decide),
   claim_C5_amended.2.2.2 "aa" "bb" (by decide)⟩

/-- The per-candidate verification score is capped at one. -/
theorem candFinalScore_le_one (claim : String) (c : CitationCandidate) (b : ℚ) :
    candFinalScore claim c b ≤ 1 := by
  simp only [candFinalScore]
  exact min_le_right _ _

unseal Rat.add Rat.mul Rat.inv Rat.sub in
/-- C2 counterexample: verify_citation has no notion of a caller-preferred
jurisdiction; the boost tracks the DIFC constant.  With caller preference
UAE, the UAE candidate (matching the preference) scores the unboosted 0.35
while the otherwise identical DIFC candidate (not matching the preference)
scores the boosted 0.45 — so the boost is not added exactly when candidate
jurisdiction equals the preference, and the matching score is strictly
below the non-matching one. -/
theorem claim_C2_counterexample :
    (verify_citation "alpha beta" [candAlphaUAE] (1/4) (1/10)).all_scores.map Prod.snd
      = [7/20] ∧
    (verify_citation "alpha beta" [candAlphaUAE] (1/4) (1/10)).all_scores.map Prod.snd
      ≠ [9/20] ∧
    (verify_citation "alpha beta" [candAlphaDIFC] (1/4) (1/10)).all_scores.map Prod.snd
      = [9/20] ∧
    enhanced_similarity "alpha beta" candAlphaUAE = 7/20 ∧
    candAlphaUAE.jurisdiction = JurisdictionType.UAE ∧
    candAlphaDIFC = { candAlphaUAE with jurisdiction := JurisdictionType.DIFC } := by
  decide

/-- C2 (amended): the +0.1 jurisdiction boost of verify_citation is added
exactly when the candidate jurisdiction is DIFC (the hard-coded DIFC-first
constant, not a caller preference); for a fixed claim/candidate pair the
DIFC-jurisdiction score is at least the score under any other jurisdiction;
and every reported score is the rounded capped score, at most 1. -/
theorem claim_C2_amended :
    (∀ (claim : String) (c : CitationCandidate), c.jurisdiction = JurisdictionType.DIFC →
      candFinalScore claim c (1/10) = min (enhanced_similarity claim c + 1/10) 1) ∧
    (∀ (claim : String) (c : CitationCandidate), c.jurisdiction ≠ JurisdictionType.DIFC →
      candFinalScore claim c (1/10) = min (enhanced_similarity claim c) 1) ∧
    (∀ (claim : String) (c : CitationCandidate) (j : JurisdictionType),
      pyRound3 (candFinalScore claim { c with jurisdiction := j } (1/10)) ≤
      pyRound3 (candFinalScore claim
        { c with jurisdiction := JurisdictionType.DIFC } (1/10))) ∧
    (∀ (claim : String) (cands : List CitationCandidate) (thr : ℚ)
      (p : CitationCandidate × ℚ), p ∈ (verify_citation claim cands thr (1/10)).all_scores →
      p.2 = pyRound3 (candFinalScore claim p.1 (1/10)) ∧ p.2 ≤ 1) := by
  refine ⟨?_, ?_, ?_, ?_⟩
  · intro claim c h
    simp only [candFinalScore]
    rw [if_pos h]
  · intro claim c h
    simp only [candFinalScore]
    rw [if_neg h]
  · intro claim c j
    by_cases hj : j = JurisdictionType.DIFC
    · rw [hj]
    · apply pyRound3_mono
      have he : enhanced_similarity claim ({ c with jurisdiction := j } : CitationCandidate) =
          enhanced_similarity claim
            ({ c with jurisdiction := JurisdictionType.DIFC } : CitationCandidate) := rfl
      simp only [candFinalScore]
      rw [if_neg (show ¬(({ c with jurisdiction := j } :
          CitationCandidate).jurisdiction = JurisdictionType.DIFC) from hj), he]
      split_ifs with hC
      · exact inf_le_inf (by linarith) le_rfl
      · exact inf_le_inf (by linarith) le_rfl
  · intro claim cands thr p hp
    by_cases hg : claim = "" ∨ cands = []
    · simp only [verify_citation] at hp
      rw [if_pos hg] at hp
      simp at hp
    · simp only [verify_citation] at hp
      rw [if_neg hg] at hp
      rcases hs : List.insertionSort pairGE
          (cands.map fun c => (c, candFinalScore claim c (1/10))) with _ | ⟨⟨bc, bs⟩, rest⟩
      · rw [hs] at hp
        simp at hp
      · rw [hs] at hp
        simp only [] at hp
        obtain ⟨q, hq, hpq⟩ := List.mem_map.mp hp
        have hqsorted : q ∈ List.insertionSort pairGE
            (cands.map fun c => (c, candFinalScore claim c (1/10))) := by
          rw [hs]
          exact hq
        have hqscored : q ∈ cands.map fun c => (c, candFinalScore claim c (1/10)) :=
          (List.perm_insertionSort pairGE _).mem_iff.mp hqsorted
        obtain ⟨c, _, hqc⟩ := List.mem_map.mp hqscored
        subst hpq
        subst hqc
        exact ⟨rfl, pyRound3_le_one (candFinalScore_le_one claim c (1/10))⟩

unseal Rat.add Rat.mul Rat.inv Rat.sub in
/-- C2 witness: the amended theorem at concrete candidates — the DIFC
candidate gets the boosted capped score, the UAE candidate the unboosted
one, and the reported score of the DIFC candidate is its rounded capped
score and at most 1. -/
theorem claim_C2_witness :
    candFinalScore "alpha beta" candAlphaDIFC (1/10) =
      min (enhanced_similarity "alpha beta" candAlphaDIFC + 1/10) 1 ∧
    candFinalScore "alpha beta" candAlphaUAE (1/10) =
      min (enhanced_similarity "alpha beta" candAlphaUAE) 1 ∧
    ((candAlphaDIFC, (9:ℚ)/20).2 =
      pyRound3 (candFinalScore "alpha beta" (candAlphaDIFC, (9:ℚ)/20).1 (1/10)) ∧
      ((candAlphaDIFC, (9:ℚ)/20).2 ≤ 1)) :=
  ⟨claim_C2_amended.1 "alpha beta" candAlphaDIFC (by decide),
   claim_C2_amended.2.1 "alpha beta" candAlphaUAE (by decide),
   claim_C2_amended.2.2.2 "alpha beta" [candAlphaDIFC] (1/4) (candAlphaDIFC, 9/20)
     (by decide)⟩

unseal Rat.add Rat.mul Rat.inv Rat.sub in
/-- C3: the memoization cache of CitationVerifier.verify is keyed only by
the claim and the candidate titles, not by the full (claim, candidate-set,
jurisdiction) tuple.  Verifying the DIFC candidate titled alpha populates
the cache; a second call with the same claim and a candidate of the same
title but UAE jurisdiction hits that cache entry and returns the boosted
DIFC result (score 0.45) instead of the unboosted result (score 0.35) that
the uncached verify_citation computes — the leak of boosted scores the
specification requires the key to prevent. -/
theorem claim_C3_cache_bug :
    (CitationVerifier.verify
        (CitationVerifier.verify verifierFixture "alpha beta" [candAlphaDIFC] true).2
        "alpha beta" [candAlphaUAE] true).1 =
      (CitationVerifier.verify verifierFixture "alpha beta" [candAlphaDIFC] true).1 ∧
    (CitationVerifier.verify
        (CitationVerifier.verify verifierFixture "alpha beta" [candAlphaDIFC] true).2
        "alpha beta" [candAlphaUAE] true).1 ≠
      verify_citation "alpha beta" [candAlphaUAE] (1/4) (1/10) ∧
    (verify_citation "alpha beta" [candAlphaUAE] (1/4) (1/10)).score = 7/20 ∧
    (CitationVerifier.verify
        (CitationVerifier.verify verifierFixture "alpha beta" [candAlphaDIFC] true).2
        "alpha beta" [candAlphaUAE] true).1.score = 9/20 ∧
    cacheKey "alpha beta" [candAlphaDIFC] = cacheKey "alpha beta" [candAlphaUAE] := by
  decide

/-- C8: create_verified_citation returns none whenever the verification
result did not pass or has no best candidate, and the citation-accepting
loop of retrieve_with_citations silently drops a pair whose result failed:
removing it from the list leaves the collected citations unchanged (and the
total functions never raise). -/
theorem claim_C8 :
    (∀ (claim : String) (vr : VerificationResult),
      vr.passed = false ∨ vr.best_candidate = none →
      create_verified_citation claim vr = none) ∧
    (∀ (q : String) (pre post : List (CitationCandidate × VerificationResult))
      (cand : CitationCandidate) (vr : VerificationResult), vr.passed = false →
      collectVerifiedCitations q (pre ++ (cand, vr) :: post) =
        collectVerifiedCitations q (pre ++ post)) := by
  constructor
  · intro claim vr h
    simp only [create_verified_citation]
    rw [if_pos h]
  · intro q pre post cand vr h
    simp [collectVerifiedCitations, List.foldl_append, h]

/-- C8 witness: a failing verification result produces no citation, and
dropping a failing pair from the loop input leaves the output unchanged. -/
theorem claim_C8_witness :
    create_verified_citation "x" ⟨false, 0, none, []⟩ = none ∧
    collectVerifiedCitations "x" ([] ++ (candAlphaUAE, ⟨false, 0, none, []⟩) :: []) =
      collectVerifiedCitations "x" ([] ++ []) :=
  ⟨claim_C8.1 "x" ⟨false, 0, none, []⟩ (Or.inl rfl),
   claim_C8.2 "x" [] [] candAlphaUAE ⟨false, 0, none, []⟩ rfl⟩

unseal Rat.add Rat.mul Rat.inv Rat.sub in
/-- C6: every match returned by hybrid_search carries the fused score
vector_score * 0.7 + keyword_score * 0.3 of its combined-score entry, and
on the scenario inputs (A: vector 0.9 / keyword 0.2, B: vector 0.5 /
keyword 0.95) the fused scores are 0.69 and 0.635 and A ranks first. -/
theorem claim_C6 :
    (∀ (vres kres : List RetrievalMatch) (limit : ℕ) (m : RetrievalMatch),
      m ∈ hybrid_search vres kres limit (7/10) (3/10) →
      ∃ e ∈ combinedScores vres kres,
        m = { chunk := e.2.chunk,
              score := e.2.vector_score * (7/10) + e.2.keyword_score * (3/10) }) ∧
    hybrid_search vresScenario kresScenario 10 (7/10) (3/10) =
      [{ chunk := chunkA, score := 69/100 }, { chunk := chunkB, score := 127/200 }] := by
  constructor
  · intro vres kres limit m hm
    simp only [hybrid_search] at hm
    have hm2 := List.take_subset _ _ hm
    have hm3 := (List.perm_insertionSort rmGE _).mem_iff.mp hm2
    obtain ⟨e, he, hme⟩ := List.mem_map.mp hm3
    exact ⟨e, he, hme.symm⟩
  · decide

unseal Rat.add Rat.mul Rat.inv Rat.sub in
/-- C6 witness: the fused-score characterization applied to the top-ranked
scenario result. -/
theorem claim_C6_witness :
    ∃ e ∈ combinedScores vresScenario kresScenario,
      ({ chunk := chunkA, score := 69/100 } : RetrievalMatch) =
        { chunk := e.2.chunk,
          score := e.2.vector_score * (7/10) + e.2.keyword_score * (3/10) } :=
  claim_C6.1 vresScenario kresScenario 10 { chunk := chunkA, score := 69/100 } (by decide)

/-- C9: both retrieval rankings — the vector search post-processing with
jurisdiction filtering and DIFC boosting, and the hybrid fused ranking —
return lists sorted by descending score: every earlier entry scores at
least every later one. -/
theorem claim_C9 :
    (∀ (hits : List (ℚ × Option Chunk)) (jurisdiction : Option JurisdictionType)
      (boost_difc : Bool) (limit : ℕ),
      List.Pairwise (fun r1 r2 : RetrievalMatch => r2.score ≤ r1.score)
        (searchProcess hits jurisdiction boost_difc limit)) ∧
    (∀ (vres kres : List RetrievalMatch) (limit : ℕ) (vw kw : ℚ),
      List.Pairwise (fun r1 r2 : RetrievalMatch => r2.score ≤ r1.score)
        (hybrid_search vres kres limit vw kw)) := by
  constructor
  · intro hits jurisdiction boost_difc limit
    simp only [searchProcess]
    exact List.Pairwise.sublist (List.take_sublist _ _) (List.sorted_insertionSort rmGE _)
  · intro vres kres limit vw kw
    simp only [hybrid_search]
    exact List.Pairwise.sublist (List.take_sublist _ _) (List.sorted_insertionSort rmGE _)

/-- With a positive step, fuel covering the remaining distance to the end
of the word list suffices for the split loop to finish. -/
theorem splitTextGo_isSome_of_pos (words : List String) (chunk_size overlap : ℤ)
    (h : 0 < chunk_size - overlap) :
    ∀ (fuel : ℕ) (i : ℤ) (acc : List String), (words.length : ℤ) - i ≤ fuel →
      (splitTextGo words chunk_size overlap i acc fuel).isSome = true := by
  intro fuel
  induction fuel with
  | zero =>
    intro i acc hle
    simp only [splitTextGo]
    rw [if_neg (by push_cast at hle ⊢; omega)]
    rfl
  | succ f ih =>
    intro i acc hle
    simp only [splitTextGo]
    by_cases hi : i < (words.length : ℤ)
    · rw [if_pos hi]
      by_cases hstop : i + chunk_size - overlap ≤ 0
      · rw [if_pos hstop]
        rfl
      · rw [if_neg hstop]
        apply ih
        push_cast at hle ⊢
        omega
    · rw [if_neg hi]
      rfl

/-- With a non-positive step the loop body runs at most once before the
break guard fires, so one unit of fuel suffices. -/
theorem splitTextGo_isSome_of_nonpos (words : List String) (chunk_size overlap : ℤ)
    (h : chunk_size - overlap ≤ 0) (fuel : ℕ) (acc : List String) :
    (splitTextGo words chunk_size overlap 0 acc (fuel + 1)).isSome = true := by
  simp only [splitTextGo]
  by_cases hi : (0:ℤ) < (words.length : ℤ)
  · rw [if_pos hi, if_pos (by omega)]
    rfl
  · rw [if_neg hi]
    rfl

/-- C10: VectorStore._split_text terminates on every input — for every text
and all integer chunk_size and overlap parameters, including overlap at
least chunk_size where the loop index stops advancing or moves backward
(caught by the break guard on a non-positive index), the loop finishes
within one more step than the number of words and returns a finite chunk
list. -/
theorem claim_C10 :
    ∀ (text : String) (chunk_size overlap : ℤ),
      ∃ chunks, split_text text chunk_size overlap = some chunks := by
  intro text chunk_size overlap
  rw [← Option.isSome_iff_exists]
  simp only [split_text]
  rcases le_or_lt (chunk_size - overlap) 0 with hstep | hstep
  · exact splitTextGo_isSome_of_nonpos (pySplit text) chunk_size overlap hstep _ []
  · exact splitTextGo_isSome_of_pos (pySplit text) chunk_size overlap hstep _ 0 []
      (by push_cast; omega)

/-- Appending one element extends a list: prefix and strictly larger
length. -/
theorem prefix_extend1 (t : List String) (a : String) :
    t <+: t ++ [a] ∧ t.length < (t ++ [a]).length := by
  constructor
  · exact List.prefix_append _ _
  · simp

/-- Appending two elements extends a list. -/
theorem prefix_extend2 (t : List String) (a b : String) :
    t <+: (t ++ [a]) ++ [b] ∧ t.length < ((t ++ [a]) ++ [b]).length := by
  constructor
  · rw [List.append_assoc]
    exact List.prefix_append _ _
  · simp

/-- Appending three elements extends a list. -/
theorem prefix_extend3 (t : List String) (a b c : String) :
    t <+: ((t ++ [a]) ++ [b]) ++ [c] ∧ t.length < (((t ++ [a]) ++ [b]) ++ [c]).length := by
  constructor
  · rw [List.append_assoc, List.append_assoc]
    exact List.prefix_append _ _
  · simp

/-- Every branch of the plan node appends at least one trace label. -/
theorem planN_extends_thinking (env : Env) (s : WorkflowState) :
    (s.thinking.getD []) <+: ((planN env s).thinking.getD []) ∧
    (s.thinking.getD []).length < ((planN env s).thinking.getD []).length := by
  rcases hc : env.planCall with e | content <;>
    simp only [planN, emit, hc, Option.getD_some] <;>
    split_ifs <;>
    first
      | exact prefix_extend1 _ _
      | exact prefix_extend2 _ _ _
      | exact prefix_extend3 _ _ _ _

/-- Every branch of the retrieve node appends at least one trace label. -/
theorem retrieveN_extends_thinking (env : Env) (s : WorkflowState) :
    (s.thinking.getD []) <+: ((retrieveN env s).thinking.getD []) ∧
    (s.thinking.getD []).length < ((retrieveN env s).thinking.getD []).length := by
  rcases hc : env.retrieveCall with e | result <;>
    simp only [retrieveN, emit, hc, Option.getD_some] <;>
    split_ifs <;>
    first
      | exact prefix_extend1 _ _
      | exact prefix_extend2 _ _ _
      | exact prefix_extend3 _ _ _ _

/-- Every branch of the draft node appends at least one trace label. -/
theorem draftN_extends_thinking (env : Env) (s : WorkflowState) :
    (s.thinking.getD []) <+: ((draftN env s).thinking.getD []) ∧
    (s.thinking.getD []).length < ((draftN env s).thinking.getD []).length := by
  rcases hc : env.draftCall with e | content <;>
    simp only [draftN, emit, hc, Option.getD_some] <;>
    split_ifs <;>
    first
      | exact prefix_extend1 _ _
      | exact prefix_extend2 _ _ _
      | exact prefix_extend3 _ _ _ _

/-- Every branch of the citation-verification node appends at least one
trace label. -/
theorem verifyCitationsN_extends_thinking (env : Env) (s : WorkflowState) :
    (s.thinking.getD []) <+: ((verifyCitationsN env s).thinking.getD []) ∧
    (s.thinking.getD []).length < ((verifyCitationsN env s).thinking.getD []).length := by
  rcases hc : env.verifyCall with e | content <;>
    simp only [verifyCitationsN, emit, hc, Option.getD_some] <;>
    split_ifs <;>
    first
      | exact prefix_extend1 _ _
      | exact prefix_extend2 _ _ _
      | exact prefix_extend3 _ _ _ _

/-- The human-review node appends two trace labels. -/
theorem humanReviewN_extends_thinking (env : Env) (s : WorkflowState) :
    (s.thinking.getD []) <+: ((humanReviewN env s).thinking.getD []) ∧
    (s.thinking.getD []).length < ((humanReviewN env s).thinking.getD []).length := by
  simp only [humanReviewN, emit, Option.getD_some]
  exact prefix_extend2 _ _ _

/-- Every branch of the export node appends at least one trace label. -/
theorem exportN_extends_thinking (env : Env) (s : WorkflowState) :
    (s.thinking.getD []) <+: ((exportN env s).thinking.getD []) ∧
    (s.thinking.getD []).length < ((exportN env s).thinking.getD []).length := by
  simp only [exportN, emit, Option.getD_some]
  split_ifs <;>
    first
      | exact prefix_extend1 _ _
      | exact prefix_extend2 _ _ _

/-- The plan node preserves an error state. -/
theorem planN_preserves : preservesAfterError planN := by
  intro env s h
  unfold planN
  rw [if_pos (show (emit env s "Creating workflow plan").error.isSome = true from h)]
  exact ⟨rfl, rfl, rfl, rfl, List.prefix_append _ _⟩

/-- The retrieve node preserves an error state. -/
theorem retrieveN_preserves : preservesAfterError retrieveN := by
  intro env s h
  unfold retrieveN
  rw [if_pos (show (emit env s
    "Retrieving DIFC sources and context").error.isSome = true from h)]
  exact ⟨rfl, rfl, rfl, rfl, List.prefix_append _ _⟩

/-- The draft node preserves an error state. -/
theorem draftN_preserves : preservesAfterError draftN := by
  intro env s h
  unfold draftN
  rw [if_pos (show (emit env s
    "Drafting content with DIFC legal analysis").error.isSome = true from h)]
  exact ⟨rfl, rfl, rfl, rfl, List.prefix_append _ _⟩

/-- The citation-verification node preserves an error state. -/
theorem verifyCitationsN_preserves : preservesAfterError verifyCitationsN := by
  intro env s h
  unfold verifyCitationsN
  rw [if_pos (show (emit env s
    "Verifying citations and content accuracy").error.isSome = true from h)]
  exact ⟨rfl, rfl, rfl, rfl, List.prefix_append _ _⟩

/-- The human-review node preserves an error state (it has no error guard,
but writes only final_output and trace labels). -/
theorem humanReviewN_preserves : preservesAfterError humanReviewN := by
  intro env s h
  unfold humanReviewN
  refine ⟨rfl, rfl, rfl, rfl, ?_⟩
  show (s.thinking.getD []) <+: ((s.thinking.getD []) ++ [_]) ++ [_]
  rw [List.append_assoc]
  exact List.prefix_append _ _

/-- The export node preserves an error state. -/
theorem exportN_preserves : preservesAfterError exportN := by
  intro env s h
  unfold exportN
  rw [if_pos (show (emit env s "Exporting final content").error.isSome = true from h)]
  exact ⟨rfl, rfl, rfl, rfl, List.prefix_append _ _⟩

/-- C1 counterexample: errors do not halt the run.  In a run where only the
verification model call fails (empty content), verify_citations returns a
state with error Failed to verify content, yet all seven stages execute —
human_review runs in full and export emits its first trace label.  And in a
run with an empty prompt, preflight itself sets the error, yet every later
stage still runs (the static edges fire regardless of the END routing of
the guard) and appends its entry label: the plan stage label appears in the
final trace and all seven outputs carry the error.  Trace labels of stages
after the error-setting stage therefore appear in the final state, refuting
the claim. -/
theorem claim_C1_counterexample :
    ((runPipelineTrace envVerifyFail (initState "hi" JurisdictionType.DIFC)).map Prod.fst =
      ["preflight", "plan", "retrieve", "draft", "verify_citations", "human_review",
       "export"]) ∧
    ((runPipelineTrace envVerifyFail (initState "hi" JurisdictionType.DIFC)).map
        (fun p => p.2.error) =
      [none, none, none, none, some "Failed to verify content",
       some "Failed to verify content", some "Failed to verify content"]) ∧
    ("[00:00:00] Preparing content for review" ∈
      (runPipeline envVerifyFail (initState "hi" JurisdictionType.DIFC)).thinking.getD []) ∧
    ("[00:00:00] Exporting final content" ∈
      (runPipeline envVerifyFail (initState "hi" JurisdictionType.DIFC)).thinking.getD []) ∧
    ((runPipelineTrace envVerifyFail (initState "" JurisdictionType.DIFC)).map
        (fun p => p.2.error) =
      [some "Missing user prompt", some "Missing user prompt", some "Missing user prompt",
       some "Missing user prompt", some "Missing user prompt", some "Missing user prompt",
       some "Missing user prompt"]) ∧
    ("[00:00:00] Creating workflow plan" ∈
      (runPipeline envVerifyFail (initState "" JurisdictionType.DIFC)).thinking.getD []) := by
  decide

/-- C1 (amended): the Orchestrator never halts early — the conditional END
routing never cancels the parallel static edge, so all seven stages execute
in every run and each one appends at least one trace label.  What survives
of the original claim is containment, not halting: along the run, whenever
a stage output carries an error, the next stage preserves that error
verbatim and adds no model-generated content (plan, draft and
verification_result unchanged); chaining these adjacent steps, an error set
by any stage survives to the final state while later stages contribute only
trace labels. -/
theorem claim_C1_amended (env : Env) (s0 : WorkflowState) :
    ((runPipelineTrace env s0).map Prod.fst =
      ["preflight", "plan", "retrieve", "draft", "verify_citations", "human_review",
       "export"]) ∧
    List.Chain' (fun p q : String × WorkflowState =>
      (p.2.thinking.getD [] <+: q.2.thinking.getD []) ∧
      (p.2.thinking.getD []).length < (q.2.thinking.getD []).length ∧
      (p.2.error.isSome = true →
        q.2.error = p.2.error ∧ q.2.plan = p.2.plan ∧ q.2.draft = p.2.draft ∧
        q.2.verification_result = p.2.verification_result))
      (runPipelineTrace env s0) ∧
    runPipeline env s0 =
      exportN env (humanReviewN env (verifyCitationsN env (draftN env (retrieveN env
        (planN env (preflightN env s0)))))) := by
  refine ⟨rfl, ?_, rfl⟩
  simp only [runPipelineTrace, List.chain'_cons, List.chain'_singleton, and_true]
  refine ⟨?_, ?_, ?_, ?_, ?_, ?_⟩
  · exact ⟨(planN_extends_thinking env _).1, (planN_extends_thinking env _).2,
      fun h => ⟨(planN_preserves env _ h).1, (planN_preserves env _ h).2.1,
        (planN_preserves env _ h).2.2.1, (planN_preserves env _ h).2.2.2.1⟩⟩
  · exact ⟨(retrieveN_extends_thinking env _).1, (retrieveN_extends_thinking env _).2,
      fun h => ⟨(retrieveN_preserves env _ h).1, (retrieveN_preserves env _ h).2.1,
        (retrieveN_preserves env _ h).2.2.1, (retrieveN_preserves env _ h).2.2.2.1⟩⟩
  · exact ⟨(draftN_extends_thinking env _).1, (draftN_extends_thinking env _).2,
      fun h => ⟨(draftN_preserves env _ h).1, (draftN_preserves env _ h).2.1,
        (draftN_preserves env _ h).2.2.1, (draftN_preserves env _ h).2.2.2.1⟩⟩
  · exact ⟨(verifyCitationsN_extends_thinking env _).1,
      (verifyCitationsN_extends_thinking env _).2,
      fun h => ⟨(verifyCitationsN_preserves env _ h).1,
        (verifyCitationsN_preserves env _ h).2.1,
        (verifyCitationsN_preserves env _ h).2.2.1,
        (verifyCitationsN_preserves env _ h).2.2.2.1⟩⟩
  · exact ⟨(humanReviewN_extends_thinking env _).1,
      (humanReviewN_extends_thinking env _).2,
      fun h => ⟨(humanReviewN_preserves env _ h).1, (humanReviewN_preserves env _ h).2.1,
        (humanReviewN_preserves env _ h).2.2.1,
        (humanReviewN_preserves env _ h).2.2.2.1⟩⟩
  · exact ⟨(exportN_extends_thinking env _).1, (exportN_extends_thinking env _).2,
      fun h => ⟨(exportN_preserves env _ h).1, (exportN_preserves env _ h).2.1,
        (exportN_preserves env _ h).2.2.1, (exportN_preserves env _ h).2.2.2.1⟩⟩

/-- C1 witness: the amended theorem at a concrete run — every stage
executes even though preflight errors on the empty prompt, and the final
state is the composition of all seven stage functions. -/
theorem claim_C1_witness :
    ((runPipelineTrace envVerifyFail (initState "" JurisdictionType.DIFC)).map Prod.fst =
      ["preflight", "plan", "retrieve", "draft", "verify_citations", "human_review",
       "export"]) ∧
    runPipeline envVerifyFail (initState "" JurisdictionType.DIFC) =
      exportN envVerifyFail (humanReviewN envVerifyFail (verifyCitationsN envVerifyFail
        (draftN envVerifyFail (retrieveN envVerifyFail (planN envVerifyFail
          (preflightN envVerifyFail (initState "" JurisdictionType.DIFC))))))) :=
  ⟨(claim_C1_amended envVerifyFail (initState "" JurisdictionType.DIFC)).1,
   (claim_C1_amended envVerifyFail (initState "" JurisdictionType.DIFC)).2.2⟩

/-- C4: for every environment and every run started with the empty
instruction, preflight sets the error Missing user prompt and the streamed
event sequence is exactly one thinking_state event (the preflight
validation label) followed by one error event; in particular no draft
fragment (draft_progress) event and no citation event occurs. -/
theorem claim_C4 (env : Env) (j : JurisdictionType) (tid : Option String)
    (rids : List String) (mo : Option String) :
    stream_run env "" j tid rids mo =
      [.thinking_state "preflight"
        ("[" ++ env.clock 0 ++ "] " ++ "Validating workflow inputs"),
       .error "preflight" "Missing user prompt"] ∧
    ∀ e ∈ stream_run env "" j tid rids mo,
      (∀ n c, e ≠ .draft_progress n c) ∧ (∀ c, e ≠ .citation c) := by
  have hmain : stream_run env "" j tid rids mo =
      [.thinking_state "preflight"
        ("[" ++ env.clock 0 ++ "] " ++ "Validating workflow inputs"),
       .error "preflight" "Missing user prompt"] := rfl
  refine ⟨hmain, ?_⟩
  intro e he
  rw [hmain] at he
  simp only [List.mem_cons, List.not_mem_nil, or_false] at he
  rcases he with rfl | rfl
  · exact ⟨(fun n c h => by cases h), (fun c h => by cases h)⟩
  · exact ⟨(fun n c h => by cases h), (fun c h => by cases h)⟩

/-- C4 witness: the theorem at the concrete fixture environment — the exact
two-event stream, and the error event is neither a draft fragment nor a
citation. -/
theorem claim_C4_witness :
    stream_run envVerifyFail "" JurisdictionType.DIFC none [] none =
      [.thinking_state "preflight" "[00:00:00] Validating workflow inputs",
       .error "preflight" "Missing user prompt"] ∧
    (StreamEvent.error "preflight" "Missing user prompt") ≠
      .citation ⟨"t", none, none, .OTHER, .DIFC⟩ :=
  ⟨(claim_C4 envVerifyFail .DIFC none [] none).1,
   ((claim_C4 envVerifyFail .DIFC none [] none).2
     (.error "preflight" "Missing user prompt") (by decide)).2
     ⟨"t", none, none, .OTHER, .DIFC⟩⟩

/-- C7: once a state carries an error, every stage that can run afterwards
(plan, retrieve, draft, verify_citations, human_review, export) preserves
it verbatim — none clears or changes the error — and none adds
model-generated content: the plan, draft and verification_result fields are
unchanged, while the thinking trace is only extended (the old trace is a
prefix of the new one).  human_review adds only the compiled final_output
summary of already-present fields. -/
theorem claim_C7 :
    preservesAfterError planN ∧ preservesAfterError retrieveN ∧
    preservesAfterError draftN ∧ preservesAfterError verifyCitationsN ∧
    preservesAfterError humanReviewN ∧ preservesAfterError exportN :=
  ⟨planN_preserves, retrieveN_preserves, draftN_preserves, verifyCitationsN_preserves,
   humanReviewN_preserves, exportN_preserves⟩

/-- C7 witness: the preservation applied at a concrete error state — plan
keeps the error and human_review keeps the draft. -/
theorem claim_C7_witness :
    (planN envVerifyFail sErrFixture).error = sErrFixture.error ∧
    (humanReviewN envVerifyFail sErrFixture).draft = sErrFixture.draft :=
  ⟨(claim_C7.1 envVerifyFail sErrFixture rfl).1,
   (claim_C7.2.2.2.2.1 envVerifyFail sErrFixture rfl).2.2.1⟩
